import Mathlib

/-!
Shallow embedding of the Food-Diary app's per-day record store and monthly
analytics (source: `app/(tabs)/index.tsx` daily log, `app/(tabs)/stats.tsx`
statistics screen, `components/AddEntryModal.tsx`).

Machine integers of the source (epoch-millis timestamps) are modelled as `Int`;
JavaScript truthiness of `moodRating` is modelled as `≠ 0` on a `Nat` field
(0 stands for the falsy values `0`/`undefined`). `AsyncStorage` is modelled as
an association list with unique date keys; JSON serialization round-trips the
record structures involved, so `setItem`/`getItem` are modelled directly on
records. Date keys `dayData_yyyy-MM-dd` are in bijection with the
(year, month, day) triple, modelled as the `Day` structure. JavaScript `Date`
values compare by epoch millis; for calendar dates this order coincides with
the lexicographic order on (year, month, day, millisecond-of-day), which is
how `DateTime` comparison is modelled.
-/

namespace FoodDiary

/-- A food entry as stored in a day's record (`id`, `name`, `time` epoch millis). -/
structure FoodEntry where
  id : String
  name : String
  time : Int
deriving Repr, DecidableEq

/-- The per-day record persisted under key `dayData_yyyy-MM-dd`
(`DayData` interface of `index.tsx`). `moodRating = 0` models a falsy rating. -/
structure DayData where
  foodEntries : List FoodEntry
  workoutDone : Bool
  workoutNote : String
  moodRating : Nat
  moodNote : String
deriving Repr, DecidableEq

/-- A calendar date, standing for the `yyyy-MM-dd` portion of a storage key. -/
structure Day where
  year : Nat
  month : Nat
  day : Nat
deriving Repr, DecidableEq

/-- A JavaScript `Date`: calendar date plus millisecond-of-day. -/
structure DateTime where
  year : Nat
  month : Nat
  day : Nat
  ms : Nat
deriving Repr, DecidableEq

/-- The calendar date of a `DateTime`. -/
def DateTime.toDay (t : DateTime) : Day := ⟨t.year, t.month, t.day⟩

/-- Strict order on `Date` values (epoch-millis order, here lexicographic). -/
def dateLt (a b : DateTime) : Bool :=
  a.year < b.year ||
    (a.year == b.year && (a.month < b.month ||
      (a.month == b.month && (a.day < b.day ||
        (a.day == b.day && a.ms < b.ms)))))

/-- Non-strict order on `Date` values. -/
def dateLe (a b : DateTime) : Bool :=
  a.year < b.year ||
    (a.year == b.year && (a.month < b.month ||
      (a.month == b.month && (a.day < b.day ||
        (a.day == b.day && a.ms ≤ b.ms)))))

/-- Gregorian leap year (as used by the `date-fns` calendar arithmetic). -/
def isLeapYear (y : Nat) : Bool :=
  (y % 4 == 0 && y % 100 != 0) || y % 400 == 0

/-- Number of days in a calendar month. -/
def daysInMonth (y m : Nat) : Nat :=
  if m == 2 then (if isLeapYear y then 29 else 28)
  else if m == 4 || m == 6 || m == 9 || m == 11 then 30
  else 31

/-- The `AsyncStorage` contents restricted to `dayData_` keys: an association
list from date key to stored record, at most one entry per key. -/
def Store : Type := List (Day × DayData)

/-- `AsyncStorage.getItem` on a day key (plus JSON parse of the stored value). -/
def getItem (s : Store) (d : Day) : Option DayData :=
  (List.find? (fun p => decide (p.1 = d)) s).map (fun p => p.2)

/-- `AsyncStorage.setItem` on a day key: overwrites any prior record for the key
(`saveDayData` of `index.tsx` serializes the current record and stores it). -/
def saveDayData (s : Store) (d : Day) (r : DayData) : Store :=
  (d, r) :: List.filter (fun p => !(decide (p.1 = d))) s

/-- The defaults `loadDayData` applies when no record is stored:
`foodEntries []`, `workoutDone false`, `workoutNote ''`, `moodRating 5`,
`moodNote ''`. -/
def defaultDayData : DayData :=
  { foodEntries := [], workoutDone := false, workoutNote := ""
    moodRating := 5, moodNote := "" }

/-- `loadDayData` of `index.tsx`: parse the stored record if present, otherwise
apply the defaults. -/
def loadDayData (s : Store) (d : Day) : DayData :=
  match getItem s d with
  | some r => r
  | none => defaultDayData

/-- C5: saving a day's record and then loading that day returns an equal record
(round-trip through serialization and the key-value backend). -/
theorem saveDay_loadDay_roundTrip (s : Store) (d : Day) (r : DayData) :
    loadDayData (saveDayData s d r) d = r := by
  simp [loadDayData, saveDayData, getItem, List.find?]

/-- C6 counterexample: for an absent date the defaulted record carries
`moodRating = 5`, a set (truthy) rating — not an unset mood. -/
theorem loadDay_absent_mood_set_counterexample :
    getItem ([] : Store) ⟨2024, 3, 1⟩ = none ∧
      ¬ (loadDayData ([] : Store) ⟨2024, 3, 1⟩).moodRating = 0 := by
  constructor
  · rfl
  · decide

/-- C6 (amended): for every date with no stored record, `loadDayData` returns
the default record with empty food entries, workout false, empty notes and
`moodRating = 5` — a SET rating, so the defaulted record is not
observationally equivalent to a mood-unset record. -/
theorem loadDay_absent_default (s : Store) (d : Day)
    (h : getItem s d = none) :
    loadDayData s d = defaultDayData ∧ (loadDayData s d).moodRating = 5 := by
  unfold loadDayData
  rw [h]
  exact ⟨rfl, rfl⟩

/-- Witness for `loadDay_absent_default` at the empty store. -/
theorem loadDay_absent_default_witness :
    loadDayData ([] : Store) ⟨2024, 3, 1⟩ = defaultDayData ∧
      (loadDayData ([] : Store) ⟨2024, 3, 1⟩).moodRating = 5 :=
  loadDay_absent_default [] ⟨2024, 3, 1⟩ rfl

/-- C7 counterexample: a record with the out-of-range mood rating 11 is
persisted verbatim by the write path — not rejected, not clamped. -/
theorem saveDay_out_of_range_persisted :
    getItem
        (saveDayData ([] : Store) ⟨2024, 3, 1⟩
          { foodEntries := [], workoutDone := false, workoutNote := ""
            moodRating := 11, moodNote := "" })
        ⟨2024, 3, 1⟩ =
      some { foodEntries := [], workoutDone := false, workoutNote := ""
             moodRating := 11, moodNote := "" } := by
  rfl

/-- C7 (amended): the write boundary performs no validation: every record,
including one whose mood rating lies outside [1,10], is persisted unchanged —
neither rejected nor clamped (range enforcement exists only in the UI mood
selector, and time validation only in the entry modal). -/
theorem saveDay_no_validation (s : Store) (d : Day) (r : DayData)
    (h : r.moodRating < 1 ∨ 10 < r.moodRating) :
    getItem (saveDayData s d r) d = some r := by
  simp [saveDayData, getItem, List.find?]

/-- Witness for `saveDay_no_validation` with rating 11. -/
theorem saveDay_no_validation_witness :
    getItem
        (saveDayData ([] : Store) ⟨2024, 4, 2⟩
          { foodEntries := [], workoutDone := true, workoutNote := "run"
            moodRating := 11, moodNote := "n" })
        ⟨2024, 4, 2⟩ =
      some { foodEntries := [], workoutDone := true, workoutNote := "run"
             moodRating := 11, moodNote := "n" } :=
  saveDay_no_validation [] ⟨2024, 4, 2⟩
    { foodEntries := [], workoutDone := true, workoutNote := "run"
      moodRating := 11, moodNote := "n" } (Or.inr (by decide))

/-! ### Monthly mood averages (`calculateMoodAverages` of `stats.tsx`) -/

/-- The ascending day numbers of a month: `eachDayOfInterval` over the month
bounds, identified by day-of-month. -/
def monthDays (y m : Nat) : List Nat := List.range' 1 (daysInMonth y m)

/-- `endOfMonth`: the last day of the month at 23:59:59.999. -/
def endOfMonthDT (y m : Nat) : DateTime := ⟨y, m, daysInMonth y m, 86399999⟩

/-- The shared per-day read of the analytics loops: `getItem`, parse, and the
truthiness test `if (dayData.moodRating)`. -/
def setRatingAt (s : Store) (y m d : Nat) : Option Nat :=
  match getItem s ⟨y, m, d⟩ with
  | some r => if r.moodRating ≠ 0 then some r.moodRating else none
  | none => none

/-- The current-month loop of `calculateMoodAverages`: iterate day by day from
`startOfMonth(today)` while `currentDate <= currentMonthEnd && currentDate <=
today` (iterated days are at midnight), collecting set mood ratings. -/
def currentMonthMoods (s : Store) (today : DateTime) : List Nat :=
  ((monthDays today.year today.month).takeWhile
      (fun d =>
        dateLe ⟨today.year, today.month, d, 0⟩
            (endOfMonthDT today.year today.month) &&
          dateLe ⟨today.year, today.month, d, 0⟩ today)).filterMap
    (fun d => setRatingAt s today.year today.month d)

/-- The (year, month) of the previous calendar month:
`startOfMonth(subDays(currentMonthStart, 1))`. -/
def prevMonthPair (y m : Nat) : Nat × Nat :=
  if m == 1 then (y - 1, 12) else (y, m - 1)

/-- The previous-month loop of `calculateMoodAverages`: the full previous
month, `currentDate <= previousMonthEnd` being the only stop condition. -/
def previousMonthMoods (s : Store) (today : DateTime) : List Nat :=
  let p := prevMonthPair today.year today.month
  ((monthDays p.1 p.2).takeWhile
      (fun d => dateLe ⟨p.1, p.2, d, 0⟩ (endOfMonthDT p.1 p.2))).filterMap
    (fun d => setRatingAt s p.1 p.2 d)

/-- The trend classification values of the `trend` React state. -/
inductive Trend
  | up
  | down
  | same
deriving Repr, DecidableEq

/-- The outputs `calculateMoodAverages` writes into React state. -/
structure MoodAveragesResult where
  currentAverage : Option ℚ
  previousAverage : Option ℚ
  trend : Option Trend
deriving Repr, DecidableEq

/-- `calculateMoodAverages` of `stats.tsx` as a state transformer: from the
store, the reference date (`today`) and the prior value of the `trend` state to
the new `currentAverage`, `previousAverage` and `trend` states. When either
average is `null` the source never calls `setTrend`, so the `trend` state keeps
its prior value. -/
def calculateMoodAverages (s : Store) (today : DateTime)
    (prevTrend : Option Trend) : MoodAveragesResult :=
  let cur := currentMonthMoods s today
  let prev := previousMonthMoods s today
  let currentAvg : Option ℚ :=
    if 0 < cur.length then some ((cur.sum : ℚ) / cur.length) else none
  let previousAvg : Option ℚ :=
    if 0 < prev.length then some ((prev.sum : ℚ) / prev.length) else none
  let trend : Option Trend :=
    match currentAvg, previousAvg with
    | some c, some p =>
        some (if p < c then Trend.up else if c < p then Trend.down
          else Trend.same)
    | _, _ => prevTrend
  ⟨currentAvg, previousAvg, trend⟩

/-- C2: on a store with zero rated days in both months, both averages are
absent, but the `trend` state retains the value of the earlier invocation
(here `up`) instead of becoming absent: the source never resets `trend`. -/
theorem trend_stale_on_absent_averages :
    calculateMoodAverages ([] : Store) ⟨2024, 3, 15, 0⟩ (some Trend.up) =
      ⟨none, none, some Trend.up⟩ := by
  decide

/-! Characterization of the iteration loops. -/

/-- `takeWhile (· ≤ D)` on an ascending `range'` keeps the prefix of values
at most `D`. -/
theorem takeWhile_range'_le (D : Nat) : ∀ (n s : Nat),
    (List.range' s n).takeWhile (fun d => decide (d ≤ D)) =
      List.range' s (if n + s ≤ D + 1 then n else D + 1 - s)
  | 0, s => by
    rw [List.range'_zero, List.takeWhile_nil, eq_comm, List.range'_eq_nil]
    split <;> omega
  | n + 1, s => by
    rw [List.range'_succ]
    by_cases h : s ≤ D
    · rw [List.takeWhile_cons_of_pos (by simpa)]
      rw [takeWhile_range'_le D n (s + 1)]
      have hm : (if n + 1 + s ≤ D + 1 then n + 1 else D + 1 - s) =
          (if n + (s + 1) ≤ D + 1 then n else D + 1 - (s + 1)) + 1 := by
        split <;> split <;> omega
      rw [hm, List.range'_succ]
    · rw [List.takeWhile_cons_of_neg
        (by simp only [decide_eq_true_eq]; omega)]
      have hm : (if n + 1 + s ≤ D + 1 then n + 1 else D + 1 - s) = 0 := by
        split <;> omega
      rw [hm]
      rfl

/-- The current-month stop condition, at day `d` of a valid reference date's
month, holds exactly when `d` is at most the reference day (iterated days sit
at midnight, so day `today.day` itself is included). -/
theorem currentLoopCond_eq (t : DateTime)
    (h : t.day ≤ daysInMonth t.year t.month) :
    (fun d =>
        dateLe ⟨t.year, t.month, d, 0⟩ (endOfMonthDT t.year t.month) &&
          dateLe ⟨t.year, t.month, d, 0⟩ t) =
      (fun d => decide (d ≤ t.day)) := by
  funext d
  rw [Bool.eq_iff_iff]
  simp only [dateLe, endOfMonthDT, Bool.and_eq_true, Bool.or_eq_true,
    decide_eq_true_eq, beq_iff_eq, lt_self_iff_false, false_or, true_and,
    and_true, Nat.zero_le]
  omega

/-- The previous-month stop condition holds on every day of that month. -/
theorem prevLoopCond_eq (y m : Nat) :
    (fun d => dateLe ⟨y, m, d, 0⟩ (endOfMonthDT y m)) =
      (fun d => decide (d ≤ daysInMonth y m)) := by
  funext d
  rw [Bool.eq_iff_iff]
  simp only [dateLe, endOfMonthDT, Bool.or_eq_true, Bool.and_eq_true,
    decide_eq_true_eq, beq_iff_eq, lt_self_iff_false, false_or, true_and,
    and_true, Nat.zero_le]
  omega

/-- Stated from the spec's words, for comparison: the qualifying current-month
samples are the days from the first day of the reference month through the
reference day inclusive whose stored record has a set mood rating. -/
def specCurrentMoodSamples (s : Store) (t : DateTime) : List Nat :=
  (List.range' 1 t.day).filterMap (fun d => setRatingAt s t.year t.month d)

/-- Stated from the spec's words, for comparison: the qualifying samples of
the full previous calendar month, no clipping. -/
def specPreviousMoodSamples (s : Store) (t : DateTime) : List Nat :=
  let p := prevMonthPair t.year t.month
  (List.range' 1 (daysInMonth p.1 p.2)).filterMap
    (fun d => setRatingAt s p.1 p.2 d)

/-- Stated from the spec's words, for comparison: the arithmetic mean of the
samples, absent when there are none. -/
def specMean (l : List Nat) : Option ℚ :=
  if l = [] then none else some ((l.sum : ℚ) / l.length)

/-- The current-month loop collects exactly the set ratings of days 1 through
the reference day. -/
theorem currentMonthMoods_eq (s : Store) (t : DateTime)
    (h : t.day ≤ daysInMonth t.year t.month) :
    currentMonthMoods s t = specCurrentMoodSamples s t := by
  unfold currentMonthMoods specCurrentMoodSamples monthDays
  rw [currentLoopCond_eq t h, takeWhile_range'_le]
  have hd : (if daysInMonth t.year t.month + 1 ≤ t.day + 1 then
      daysInMonth t.year t.month else t.day + 1 - 1) = t.day := by
    split <;> omega
  rw [hd]

/-- The previous-month loop collects the set ratings of the whole previous
month. -/
theorem previousMonthMoods_eq (s : Store) (t : DateTime) :
    previousMonthMoods s t = specPreviousMoodSamples s t := by
  simp only [previousMonthMoods, specPreviousMoodSamples, monthDays]
  rw [prevLoopCond_eq, takeWhile_range'_le]
  have hd : (if daysInMonth (prevMonthPair t.year t.month).1
        (prevMonthPair t.year t.month).2 + 1 ≤
        daysInMonth (prevMonthPair t.year t.month).1
          (prevMonthPair t.year t.month).2 + 1 then
      daysInMonth (prevMonthPair t.year t.month).1
        (prevMonthPair t.year t.month).2
    else daysInMonth (prevMonthPair t.year t.month).1
        (prevMonthPair t.year t.month).2 + 1 - 1) =
      daysInMonth (prevMonthPair t.year t.month).1
        (prevMonthPair t.year t.month).2 := by
    split <;> omega
  rw [hd]

/-- The source's guarded average (`length > 0 ? sum/length : null`) is the
spec's mean-or-absent. -/
theorem guarded_average_eq_specMean (l : List Nat) :
    (if 0 < l.length then some ((l.sum : ℚ) / l.length) else none) =
      specMean l := by
  cases l <;> simp [specMean]

/-- C4: for a valid reference date, the current-month average is the
arithmetic mean of the set mood ratings over exactly the days from the first
of the month through the reference day inclusive (later days excluded, unset
or zero ratings not counted), and the previous-month average is the mean over
the full previous calendar month, unclipped. -/
theorem getMonthTrend_averages_spec (s : Store) (t : DateTime)
    (pt : Option Trend) (h : t.day ≤ daysInMonth t.year t.month) :
    (calculateMoodAverages s t pt).currentAverage =
        specMean (specCurrentMoodSamples s t) ∧
      (calculateMoodAverages s t pt).previousAverage =
        specMean (specPreviousMoodSamples s t) := by
  have h1 := currentMonthMoods_eq s t h
  have h2 := previousMonthMoods_eq s t
  simp only [calculateMoodAverages, h1, h2]
  exact ⟨guarded_average_eq_specMean _, guarded_average_eq_specMean _⟩

/-- A stored record with the given mood rating and no food entries. -/
def ratedDay (n : Nat) : DayData :=
  { foodEntries := [], workoutDone := false, workoutNote := ""
    moodRating := n, moodNote := "" }

/-- Witness for `getMonthTrend_averages_spec`: a store with rated days on
2024-03-02 (in range), 2024-03-20 (after the reference day 15) and
2024-02-10 (previous month). -/
theorem getMonthTrend_averages_spec_witness :
    (calculateMoodAverages
          [(⟨2024, 3, 2⟩, ratedDay 8), (⟨2024, 3, 20⟩, ratedDay 2),
           (⟨2024, 2, 10⟩, ratedDay 6)]
          ⟨2024, 3, 15, 0⟩ none).currentAverage =
        specMean (specCurrentMoodSamples
          [(⟨2024, 3, 2⟩, ratedDay 8), (⟨2024, 3, 20⟩, ratedDay 2),
           (⟨2024, 2, 10⟩, ratedDay 6)]
          ⟨2024, 3, 15, 0⟩) ∧
      (calculateMoodAverages
          [(⟨2024, 3, 2⟩, ratedDay 8), (⟨2024, 3, 20⟩, ratedDay 2),
           (⟨2024, 2, 10⟩, ratedDay 6)]
          ⟨2024, 3, 15, 0⟩ none).previousAverage =
        specMean (specPreviousMoodSamples
          [(⟨2024, 3, 2⟩, ratedDay 8), (⟨2024, 3, 20⟩, ratedDay 2),
           (⟨2024, 2, 10⟩, ratedDay 6)]
          ⟨2024, 3, 15, 0⟩) :=
  getMonthTrend_averages_spec _ ⟨2024, 3, 15, 0⟩ none (by decide)

/-! ### Chart series (`loadChartDataForMonth` of `stats.tsx`) -/

/-- A chart point (`DailyMoodData` of `stats.tsx`): the day of the month (the
source stores the 2-digit string `format(day, 'dd')`, modelled by the day
number it encodes) and the score. -/
structure DailyMoodData where
  date : Nat
  score : Nat
deriving Repr, DecidableEq

/-- `loadChartDataForMonth`: one point for every day of the selected month,
scored by the stored set rating, with 0 pushed when the record is absent or
its rating falsy. -/
def loadChartDataForMonth (s : Store) (y m : Nat) : List DailyMoodData :=
  (monthDays y m).map (fun d =>
    match getItem s ⟨y, m, d⟩ with
    | some r =>
        if r.moodRating ≠ 0 then (⟨d, r.moodRating⟩ : DailyMoodData)
        else ⟨d, 0⟩
    | none => ⟨d, 0⟩)

/-- Stated from the spec's words, for comparison: the score a day carries —
the record's mood rating when present and set, else the sentinel 0. -/
def specDayScore (s : Store) (y m d : Nat) : Nat :=
  match getItem s ⟨y, m, d⟩ with
  | some r => if r.moodRating ≠ 0 then r.moodRating else 0
  | none => 0

/-- C3: the chart series has exactly one point per calendar day of the target
month (the whole month), in ascending day order, each day scored by its set
rating or the sentinel 0. -/
theorem getMonthSeries_spec (s : Store) (y m : Nat) :
    (loadChartDataForMonth s y m).length = daysInMonth y m ∧
      (loadChartDataForMonth s y m).map (fun p => p.date) =
        List.range' 1 (daysInMonth y m) ∧
      (loadChartDataForMonth s y m).map (fun p => p.score) =
        (List.range' 1 (daysInMonth y m)).map (fun d => specDayScore s y m d) := by
  refine ⟨?_, ?_, ?_⟩
  · simp [loadChartDataForMonth, monthDays]
  · rw [loadChartDataForMonth, List.map_map, monthDays]
    apply List.map_id''
    intro d
    simp only [Function.comp_apply]
    cases getItem s ⟨y, m, d⟩ with
    | none => rfl
    | some r => by_cases hr : r.moodRating ≠ 0 <;> simp [hr]
  · rw [loadChartDataForMonth, List.map_map, monthDays]
    apply List.map_congr_left
    intro d _
    simp only [Function.comp_apply]
    cases h : getItem s ⟨y, m, d⟩ with
    | none => simp [specDayScore, h]
    | some r =>
        by_cases hr : r.moodRating ≠ 0 <;> simp [specDayScore, h, hr]

/-! ### Food-entry list operations (`index.tsx`) -/

/-- The ascending-by-time comparator of `handleSaveEntry`
(`(a, b) => a.time - b.time`). -/
def entryTimeLe (a b : FoodEntry) : Bool := a.time ≤ b.time

/-- `handleDeleteFood`: drop the entry with the given id. -/
def handleDeleteFood (entries : List FoodEntry) (entryId : String) :
    List FoodEntry :=
  entries.filter (fun e => !(decide (e.id = entryId)))

/-- `handleSaveEntry`, add branch: append the new entry and sort the list
ascending by time. -/
def handleSaveEntryAdd (entries : List FoodEntry) (newEntry : FoodEntry) :
    List FoodEntry :=
  (entries ++ [newEntry]).mergeSort entryTimeLe

/-- `handleSaveEntry`, edit branch: rewrite the name and time of the entry
carrying the editing id in place — the list is NOT re-sorted. `newTime`
stands for `adjustedTime.getTime()`. -/
def handleSaveEntryEdit (entries : List FoodEntry) (editId newName : String)
    (newTime : Int) : List FoodEntry :=
  entries.map (fun item =>
    if item.id = editId then { item with name := newName, time := newTime }
    else item)

/-- The invariant claimed for a record's `foodEntries`: ascending by `time`. -/
def SortedByTime (entries : List FoodEntry) : Prop :=
  List.Pairwise (fun a b => a.time ≤ b.time) entries

instance (entries : List FoodEntry) : Decidable (SortedByTime entries) :=
  inferInstanceAs
    (Decidable
      (List.Pairwise (fun a b : FoodEntry => a.time ≤ b.time) entries))

/-- C8 counterexample: editing the first entry's time to a later instant
leaves it in place ahead of an entry with an earlier time, breaking the
ascending-by-time order. -/
theorem edit_breaks_time_order_counterexample :
    SortedByTime
        [⟨"1", "toast", 1709280000000⟩, ⟨"2", "soup", 1709287200000⟩] ∧
      ¬ SortedByTime
        (handleSaveEntryEdit
          [⟨"1", "toast", 1709280000000⟩, ⟨"2", "soup", 1709287200000⟩]
          "1" "toast" 1709290800000) := by
  constructor
  · decide
  · decide

/-- C8 (amended): adding an entry re-sorts the list, so it is sorted
ascending by time afterwards, and deleting preserves sortedness; but the edit
operation rewrites an entry's time in place without re-sorting, and can break
the order (see the counterexample). -/
theorem foodEntries_sorted_add_delete (entries : List FoodEntry)
    (newEntry : FoodEntry) (entryId : String) (h : SortedByTime entries) :
    SortedByTime (handleSaveEntryAdd entries newEntry) ∧
      SortedByTime (handleDeleteFood entries entryId) := by
  constructor
  · have hs := @List.sorted_mergeSort FoodEntry entryTimeLe
      (fun a b c hab hbc => by
        simp only [entryTimeLe, decide_eq_true_eq] at *
        omega)
      (fun a b => by
        simp only [entryTimeLe, Bool.or_eq_true, decide_eq_true_eq]
        omega)
      (entries ++ [newEntry])
    exact hs.imp (fun hab => by
      simpa only [entryTimeLe, decide_eq_true_eq] using hab)
  · exact List.Pairwise.filter _ h

/-- Witness for `foodEntries_sorted_add_delete` on a concrete sorted list. -/
theorem foodEntries_sorted_add_delete_witness :
    SortedByTime
        (handleSaveEntryAdd
          [⟨"1", "toast", 1709280000000⟩, ⟨"2", "soup", 1709287200000⟩]
          ⟨"3", "tea", 1709283600000⟩) ∧
      SortedByTime
        (handleDeleteFood
          [⟨"1", "toast", 1709280000000⟩, ⟨"2", "soup", 1709287200000⟩]
          "1") :=
  foodEntries_sorted_add_delete
    [⟨"1", "toast", 1709280000000⟩, ⟨"2", "soup", 1709287200000⟩]
    ⟨"3", "tea", 1709283600000⟩ "1" (by decide)

/-! ### Month navigation (`handleMonthChange` of `stats.tsx`) -/

/-- The two navigation directions of the chart's month selector. -/
inductive NavDirection
  | prev
  | next
deriving Repr, DecidableEq

/-- The (year, month) one month after the given one. -/
def nextMonthPair (y m : Nat) : Nat × Nat :=
  if m == 12 then (y + 1, 1) else (y, m + 1)

/-- `subMonths(date, 1)` of date-fns: the previous month, with the
day-of-month clamped to that month's length and the time of day preserved. -/
def subMonths1 (t : DateTime) : DateTime :=
  let p := prevMonthPair t.year t.month
  ⟨p.1, p.2,
    if t.day ≤ daysInMonth p.1 p.2 then t.day else daysInMonth p.1 p.2,
    t.ms⟩

/-- `addMonths(date, 1)` of date-fns: the next month, day clamped, time
preserved. -/
def addMonths1 (t : DateTime) : DateTime :=
  let p := nextMonthPair t.year t.month
  ⟨p.1, p.2,
    if t.day ≤ daysInMonth p.1 p.2 then t.day else daysInMonth p.1 p.2,
    t.ms⟩

/-- `handleMonthChange`: move the selected month by one (`prev` or `next`),
except that a `next` request whose resulting date lies after the current
instant (`newMonth > new Date()`) is rejected and the selection kept. -/
def handleMonthChange (dir : NavDirection) (now selected : DateTime) :
    DateTime :=
  match dir with
  | .prev => subMonths1 selected
  | .next =>
      let newMonth := addMonths1 selected
      if dateLt now newMonth then selected else newMonth

/-- Calendar months counted linearly, to compare months across years. -/
def monthIdx (y m : Nat) : Nat := 12 * y + m

/-- A later calendar month makes a later `Date`, whatever the day and time. -/
theorem dateLt_of_monthIdx_lt (a b : DateTime)
    (ha : 1 ≤ a.month ∧ a.month ≤ 12) (hb : 1 ≤ b.month ∧ b.month ≤ 12)
    (h : monthIdx a.year a.month < monthIdx b.year b.month) :
    dateLt a b = true := by
  simp only [monthIdx] at h
  simp only [dateLt, Bool.or_eq_true, Bool.and_eq_true, decide_eq_true_eq,
    beq_iff_eq]
  omega

/-- `addMonths1` advances the linear month index by one and keeps the month
number in range. -/
theorem monthIdx_addMonths1 (t : DateTime)
    (h : 1 ≤ t.month ∧ t.month ≤ 12) :
    monthIdx (addMonths1 t).year (addMonths1 t).month =
        monthIdx t.year t.month + 1 ∧
      1 ≤ (addMonths1 t).month ∧ (addMonths1 t).month ≤ 12 := by
  simp only [addMonths1, nextMonthPair, monthIdx]
  split
  · next heq => simp only [beq_iff_eq] at heq; omega
  · next heq => simp only [beq_iff_eq] at heq; omega

/-- C9 counterexample: with the current instant 2024-03-10 and the selected
date 2024-02-20 (a past month), a `next` request toward March — the current
calendar month, not beyond it — is rejected, because the resulting date
2024-03-20 compares after the current instant. -/
theorem month_nav_next_to_current_month_rejected :
    handleMonthChange NavDirection.next ⟨2024, 3, 10, 0⟩ ⟨2024, 2, 20, 0⟩ =
        ⟨2024, 2, 20, 0⟩ ∧
      monthIdx 2024 2 < monthIdx 2024 3 ∧
      addMonths1 ⟨2024, 2, 20, 0⟩ = ⟨2024, 3, 20, 0⟩ ∧
      monthIdx 2024 3 ≤ monthIdx 2024 3 := by
  refine ⟨?_, by decide, by decide, by decide⟩
  decide

/-- C9 (amended): a `next` request is rejected exactly when the date one
month after the selected date (same clamped day-of-month and time) lies after
the current instant. Hence the selection never advances beyond the current
calendar month, and a `next` request from the current month is always
rejected; but a `next` request from a past month toward a month not beyond
the current calendar month succeeds only when that resulting date is not in
the future (see the counterexample for a rejected one). -/
theorem handleMonthChange_next_spec (now sel : DateTime)
    (hs : 1 ≤ sel.month ∧ sel.month ≤ 12)
    (hn : 1 ≤ now.month ∧ now.month ≤ 12) :
    (monthIdx sel.year sel.month = monthIdx now.year now.month →
        handleMonthChange NavDirection.next now sel = sel) ∧
      (monthIdx sel.year sel.month ≤ monthIdx now.year now.month →
        monthIdx (handleMonthChange NavDirection.next now sel).year
            (handleMonthChange NavDirection.next now sel).month ≤
          monthIdx now.year now.month) ∧
      (dateLt now (addMonths1 sel) = false →
        handleMonthChange NavDirection.next now sel = addMonths1 sel) ∧
      (dateLt now (addMonths1 sel) = true →
        handleMonthChange NavDirection.next now sel = sel) := by
  obtain ⟨hidx, hm1, hm2⟩ := monthIdx_addMonths1 sel hs
  have hreject : dateLt now (addMonths1 sel) = true →
      handleMonthChange NavDirection.next now sel = sel := by
    intro hlt
    simp [handleMonthChange, hlt]
  have haccept : dateLt now (addMonths1 sel) = false →
      handleMonthChange NavDirection.next now sel = addMonths1 sel := by
    intro hlt
    simp [handleMonthChange, hlt]
  refine ⟨?_, ?_, haccept, hreject⟩
  · intro heq
    apply hreject
    exact dateLt_of_monthIdx_lt now (addMonths1 sel) hn ⟨hm1, hm2⟩
      (by omega)
  · intro hle
    cases hlt : dateLt now (addMonths1 sel) with
    | true => rw [hreject hlt]; exact hle
    | false =>
        rw [haccept hlt]
        by_contra hgt
        have : dateLt now (addMonths1 sel) = true :=
          dateLt_of_monthIdx_lt now (addMonths1 sel) hn ⟨hm1, hm2⟩
            (by omega)
        rw [hlt] at this
        exact Bool.false_ne_true this

/-- Witness for `handleMonthChange_next_spec`: now 2024-03-31, selected
2024-01-05. -/
theorem handleMonthChange_next_spec_witness :
    (monthIdx 2024 1 = monthIdx 2024 3 →
        handleMonthChange NavDirection.next ⟨2024, 3, 31, 0⟩
          ⟨2024, 1, 5, 0⟩ = ⟨2024, 1, 5, 0⟩) ∧
      (monthIdx 2024 1 ≤ monthIdx 2024 3 →
        monthIdx
            (handleMonthChange NavDirection.next ⟨2024, 3, 31, 0⟩
              ⟨2024, 1, 5, 0⟩).year
            (handleMonthChange NavDirection.next ⟨2024, 3, 31, 0⟩
              ⟨2024, 1, 5, 0⟩).month ≤
          monthIdx 2024 3) ∧
      (dateLt ⟨2024, 3, 31, 0⟩ (addMonths1 ⟨2024, 1, 5, 0⟩) = false →
        handleMonthChange NavDirection.next ⟨2024, 3, 31, 0⟩
            ⟨2024, 1, 5, 0⟩ = addMonths1 ⟨2024, 1, 5, 0⟩) ∧
      (dateLt ⟨2024, 3, 31, 0⟩ (addMonths1 ⟨2024, 1, 5, 0⟩) = true →
        handleMonthChange NavDirection.next ⟨2024, 3, 31, 0⟩
            ⟨2024, 1, 5, 0⟩ = ⟨2024, 1, 5, 0⟩) :=
  handleMonthChange_next_spec ⟨2024, 3, 31, 0⟩ ⟨2024, 1, 5, 0⟩
    (by decide) (by decide)

/-! ### Food-mood correlation (the `foodMoodMap` scan of `stats.tsx`) -/

/-- One food's aggregate (the `FoodMoodData` values of `stats.tsx`). -/
structure FoodStat where
  totalScore : Nat
  occurrences : Nat
  averageScore : ℚ
deriving Repr, DecidableEq

/-- `name.toLowerCase()` of the source: lower-case the name character by
character (this equals `String.toLower`, whose `mapAux` implementation does
not reduce definitionally, hence the direct map over the character list). -/
def toLowerStr (s : String) : String := ⟨s.data.map Char.toLower⟩

/-- The body of the `forEach` over a qualifying day's entries: key the map by
the lower-cased entry name, initialize the slot to zeroes when absent, add
the day's rating to `totalScore`, bump `occurrences` by one, and recompute
`averageScore = totalScore / occurrences`. -/
def processEntry (m : String → Option FoodStat) (rating : Nat)
    (e : FoodEntry) : String → Option FoodStat :=
  let fn := toLowerStr e.name
  let prev := (m fn).getD ⟨0, 0, 0⟩
  let t := prev.totalScore + rating
  let o := prev.occurrences + 1
  fun k => if k = fn then some ⟨t, o, (t : ℚ) / (o : ℚ)⟩ else m k

/-- The per-record step of the scan: a record qualifies when
`dayData.moodRating` is truthy (`dayData.foodEntries` is truthy for every
well-formed record, the empty array included). -/
def processDayRecord (m : String → Option FoodStat) (r : DayData) :
    String → Option FoodStat :=
  if r.moodRating ≠ 0 then
    r.foodEntries.foldl (fun acc e => processEntry acc r.moodRating e) m
  else m

/-- The food-mood correlation scan: every stored `dayData_` record folded
into a map from lower-cased food name to its aggregate. -/
def calculateFoodMoodMap (s : Store) : String → Option FoodStat :=
  s.foldl (fun m p => processDayRecord m p.2) (fun _ => none)

/-- Stated from the spec's words, for comparison: one sample per `FoodEntry`
whose name lower-cases to `fn`, across all stored records with a set mood
rating, each sample being the containing day's rating. -/
def specFoodSamples (s : Store) (fn : String) : List Nat :=
  s.flatMap (fun p =>
    if p.2.moodRating ≠ 0 then
      (p.2.foodEntries.filter
          (fun e => decide (toLowerStr e.name = fn))).map
        (fun _ => p.2.moodRating)
    else [])

/-- How a map slot must relate to the sample list of its food: absent iff no
samples, else occurrences = sample count, totalScore = sample sum, and
averageScore = totalScore / occurrences. -/
def StatMatches (o : Option FoodStat) (rs : List Nat) : Prop :=
  match o with
  | none => rs = []
  | some st =>
      st.occurrences = rs.length ∧ st.totalScore = rs.sum ∧
        0 < rs.length ∧
        st.averageScore = (st.totalScore : ℚ) / (st.occurrences : ℚ)

/-- One `processEntry` step extends the matched samples of the entry's
lower-cased name by the day's rating. -/
theorem processEntry_statMatches (m : String → Option FoodStat)
    (rating : Nat) (e : FoodEntry) (rs : String → List Nat)
    (h : ∀ fn, StatMatches (m fn) (rs fn)) (fn : String) :
    StatMatches (processEntry m rating e fn)
      (rs fn ++ if toLowerStr e.name = fn then [rating] else []) := by
  by_cases hfn : fn = toLowerStr e.name
  · have hm := h fn
    cases hm2 : m fn with
    | none =>
        rw [hm2] at hm
        replace hm : rs fn = [] := hm
        simp [processEntry, StatMatches, ← hfn, hm2, hm]
    | some st =>
        rw [hm2] at hm
        obtain ⟨h1, h2, h3, h4⟩ := hm
        simp [processEntry, StatMatches, ← hfn, hm2, h1, h2]
  · have hne : toLowerStr e.name ≠ fn := fun hc => hfn hc.symm
    simp only [processEntry, if_neg hfn, if_neg hne, List.append_nil]
    exact h fn

/-- Folding the entries of a qualifying record extends every food's matched
samples by one rating per matching entry. -/
theorem processEntries_statMatches (rating : Nat) :
    ∀ (es : List FoodEntry) (m : String → Option FoodStat)
      (rs : String → List Nat),
      (∀ fn, StatMatches (m fn) (rs fn)) →
      ∀ fn,
        StatMatches
          ((es.foldl (fun acc e => processEntry acc rating e) m) fn)
          (rs fn ++
            (es.filter (fun e => decide (toLowerStr e.name = fn))).map
              (fun _ => rating))
  | [], m, rs, h, fn => by simpa using h fn
  | e :: es, m, rs, h, fn => by
      rw [List.foldl_cons]
      have hstep := fun fn2 => processEntry_statMatches m rating e rs h fn2
      have hrec := processEntries_statMatches rating es
        (processEntry m rating e)
        (fun fn2 => rs fn2 ++ if toLowerStr e.name = fn2 then [rating] else [])
        hstep fn
      have harr :
          (rs fn ++ if toLowerStr e.name = fn then [rating] else []) ++
              (es.filter (fun e2 => decide (toLowerStr e2.name = fn))).map
                (fun _ => rating) =
            rs fn ++
              (((e :: es).filter
                  (fun e2 => decide (toLowerStr e2.name = fn))).map
                (fun _ => rating)) := by
        by_cases hfn : toLowerStr e.name = fn
        · simp [List.filter_cons, hfn, List.append_assoc]
        · simp [List.filter_cons, hfn]
      rw [← harr]
      exact hrec

/-- Folding store records extends every food's matched samples by that
record's contribution. -/
theorem foldStore_statMatches :
    ∀ (l : Store) (m : String → Option FoodStat) (rs : String → List Nat),
      (∀ fn, StatMatches (m fn) (rs fn)) →
      ∀ fn,
        StatMatches ((l.foldl (fun m2 p => processDayRecord m2 p.2) m) fn)
          (rs fn ++ specFoodSamples l fn)
  | [], m, rs, h, fn => by simpa [specFoodSamples] using h fn
  | p :: l, m, rs, h, fn => by
      rw [List.foldl_cons]
      have hsamp : specFoodSamples (p :: l) fn =
          (if p.2.moodRating ≠ 0 then
            (p.2.foodEntries.filter
                (fun e => decide (toLowerStr e.name = fn))).map
              (fun _ => p.2.moodRating)
          else []) ++ specFoodSamples l fn := by
        simp [specFoodSamples]
      by_cases hq : p.2.moodRating ≠ 0
      · have hstep := processEntries_statMatches p.2.moodRating
          p.2.foodEntries m rs h
        have hrec := foldStore_statMatches l
          (p.2.foodEntries.foldl
            (fun acc e => processEntry acc p.2.moodRating e) m)
          (fun fn2 => rs fn2 ++
            (p.2.foodEntries.filter
                (fun e => decide (toLowerStr e.name = fn2))).map
              (fun _ => p.2.moodRating))
          hstep fn
        rw [hsamp, if_pos hq, processDayRecord, if_pos hq,
          ← List.append_assoc]
        exact hrec
      · have hrec := foldStore_statMatches l m rs h fn
        rw [hsamp, if_neg hq, processDayRecord, if_neg hq,
          List.nil_append]
        exact hrec

/-- The two-day scenario of the spec: 2024-03-01 with mood 8 and food
["Pizza"], 2024-03-02 with mood 4 and foods ["Pizza", "Salad"]. -/
def scenarioStore : Store :=
  [(⟨2024, 3, 1⟩, ⟨[⟨"1", "Pizza", 1709287200000⟩], false, "", 8, ""⟩),
   (⟨2024, 3, 2⟩,
    ⟨[⟨"2", "Pizza", 1709377200000⟩, ⟨"3", "Salad", 1709398800000⟩],
      false, "", 4, ""⟩)]

/-- C1: in every store state the correlation map relates each lower-cased
food name to the `FoodEntry` items bearing it across all records with a set
mood rating — occurrences counts those entries (once per entry, so a food
eaten three times in one day contributes three), totalScore sums the
containing days' ratings, and averageScore = totalScore / occurrences; and on
the concrete two-day scenario the map sends pizza to ⟨12, 2, 6⟩ and salad to
⟨4, 1, 4⟩. -/
theorem getFoodCorrelations_spec :
    (∀ (s : Store) (fn : String),
        StatMatches (calculateFoodMoodMap s fn) (specFoodSamples s fn)) ∧
      calculateFoodMoodMap scenarioStore "pizza" = some ⟨12, 2, 6⟩ ∧
      calculateFoodMoodMap scenarioStore "salad" = some ⟨4, 1, 4⟩ := by
  have hgen : ∀ (s : Store) (fn : String),
      StatMatches (calculateFoodMoodMap s fn) (specFoodSamples s fn) := by
    intro s fn
    have := foldStore_statMatches s (fun _ => none) (fun _ => [])
      (fun _ => rfl) fn
    simpa [calculateFoodMoodMap] using this
  refine ⟨hgen, ?_, ?_⟩
  · have h1 := hgen scenarioStore "pizza"
    have hs : specFoodSamples scenarioStore "pizza" = [8, 4] := by decide
    rw [hs] at h1
    cases hmap : calculateFoodMoodMap scenarioStore "pizza" with
    | none =>
        rw [hmap] at h1
        have h2 : ([8, 4] : List Nat) = [] := h1
        simp at h2
    | some st =>
        rw [hmap] at h1
        have h2 : st.occurrences = ([8, 4] : List Nat).length ∧
            st.totalScore = ([8, 4] : List Nat).sum ∧
            0 < ([8, 4] : List Nat).length ∧
            st.averageScore =
              (st.totalScore : ℚ) / (st.occurrences : ℚ) := h1
        obtain ⟨ho, ht, hpos, ha⟩ := h2
        have hst : st = ⟨12, 2, 6⟩ := by
          obtain ⟨t, o, a⟩ := st
          dsimp only at ho ht ha
          have hlen : ([8, 4] : List Nat).length = 2 := by decide
          have hsum : ([8, 4] : List Nat).sum = 12 := by decide
          rw [hlen] at ho
          rw [hsum] at ht
          subst ho
          subst ht
          have ha6 : a = 6 := by rw [ha]; norm_num
          subst ha6
          rfl
        rw [hst]
  · have h1 := hgen scenarioStore "salad"
    have hs : specFoodSamples scenarioStore "salad" = [4] := by decide
    rw [hs] at h1
    cases hmap : calculateFoodMoodMap scenarioStore "salad" with
    | none =>
        rw [hmap] at h1
        have h2 : ([4] : List Nat) = [] := h1
        simp at h2
    | some st =>
        rw [hmap] at h1
        have h2 : st.occurrences = ([4] : List Nat).length ∧
            st.totalScore = ([4] : List Nat).sum ∧
            0 < ([4] : List Nat).length ∧
            st.averageScore =
              (st.totalScore : ℚ) / (st.occurrences : ℚ) := h1
        obtain ⟨ho, ht, hpos, ha⟩ := h2
        have hst : st = ⟨4, 1, 4⟩ := by
          obtain ⟨t, o, a⟩ := st
          dsimp only at ho ht ha
          have hlen : ([4] : List Nat).length = 1 := by decide
          have hsum : ([4] : List Nat).sum = 4 := by decide
          rw [hlen] at ho
          rw [hsum] at ht
          subst ho
          subst ht
          have ha4 : a = 4 := by rw [ha]; norm_num
          subst ha4
          rfl
        rw [hst]

/-! ### Visiting a day in the daily log (`DailyLog` effects of `index.tsx`) -/

/-- The `DailyLog` effect pair on selecting a date: the load effect populates
the component state through `loadDayData` (defaults applied when the record
is absent) and the save effect then persists exactly that state through
`saveDayData`. -/
def visitDay (s : Store) (d : Day) : Store :=
  saveDayData s d (loadDayData s d)

/-- C10: merely visiting a date with no stored record persists the default
record (empty entries, workout false, empty notes, moodRating 5); its set
rating 5 then appears as a qualifying sample of the monthly averages, gives
the day's chart point the score 5 instead of the no-data sentinel, and makes
the day qualify for the food-mood correlation: a food entry logged on the
visited day is counted once with score 5. -/
theorem visit_absent_day_not_readonly (s : Store) (t : DateTime)
    (e : FoodEntry)
    (h : getItem s ⟨t.year, t.month, t.day⟩ = none)
    (h1 : 1 ≤ t.day) (h2 : t.day ≤ daysInMonth t.year t.month) :
    getItem (visitDay s ⟨t.year, t.month, t.day⟩)
        ⟨t.year, t.month, t.day⟩ = some defaultDayData ∧
      defaultDayData.moodRating = 5 ∧
      (5 : Nat) ∈ currentMonthMoods (visitDay s ⟨t.year, t.month, t.day⟩) t ∧
      (⟨t.day, 5⟩ : DailyMoodData) ∈
        loadChartDataForMonth (visitDay s ⟨t.year, t.month, t.day⟩)
          t.year t.month ∧
      calculateFoodMoodMap
          (saveDayData (visitDay ([] : Store) ⟨t.year, t.month, t.day⟩)
            ⟨t.year, t.month, t.day⟩
            { defaultDayData with foodEntries := handleSaveEntryAdd [] e })
          (toLowerStr e.name) = some ⟨5, 1, 5⟩ := by
  have hload : loadDayData s ⟨t.year, t.month, t.day⟩ = defaultDayData := by
    unfold loadDayData
    rw [h]
  have hget : getItem (visitDay s ⟨t.year, t.month, t.day⟩)
      ⟨t.year, t.month, t.day⟩ = some defaultDayData := by
    simp [visitDay, hload, saveDayData, getItem, List.find?]
  refine ⟨hget, rfl, ?_, ?_, ?_⟩
  · rw [currentMonthMoods_eq _ t h2]
    unfold specCurrentMoodSamples
    apply List.mem_filterMap.mpr
    refine ⟨t.day, ?_, ?_⟩
    · have : t.day ∈ List.range' 1 t.day ↔ 1 ≤ t.day ∧ t.day < 1 + t.day :=
        List.mem_range'_1
      exact this.mpr ⟨h1, by omega⟩
    · simp [setRatingAt, hget, defaultDayData]
  · unfold loadChartDataForMonth
    apply List.mem_map.mpr
    refine ⟨t.day, ?_, ?_⟩
    · unfold monthDays
      have : t.day ∈ List.range' 1 (daysInMonth t.year t.month) ↔
          1 ≤ t.day ∧ t.day < 1 + daysInMonth t.year t.month :=
        List.mem_range'_1
      exact this.mpr ⟨h1, by omega⟩
    · rw [hget]
      simp [defaultDayData]
  · have hone : saveDayData (visitDay ([] : Store) ⟨t.year, t.month, t.day⟩)
        ⟨t.year, t.month, t.day⟩
        { defaultDayData with foodEntries := handleSaveEntryAdd [] e } =
        [(⟨t.year, t.month, t.day⟩,
          { defaultDayData with foodEntries := handleSaveEntryAdd [] e })] := by
      simp [visitDay, saveDayData, loadDayData, getItem]
    rw [hone]
    have hentries : handleSaveEntryAdd [] e = [e] := by
      simp [handleSaveEntryAdd]
    rw [hentries]
    unfold calculateFoodMoodMap
    rw [List.foldl_cons, List.foldl_nil]
    unfold processDayRecord
    rw [if_pos (by simp [defaultDayData])]
    rw [List.foldl_cons, List.foldl_nil]
    unfold processEntry
    rw [if_pos rfl]
    have h5 : ((0 + 5 : Nat) : ℚ) / ((0 + 1 : Nat) : ℚ) = 5 := by norm_num
    simp only [defaultDayData, Option.getD_none]
    norm_num

/-- Witness for `visit_absent_day_not_readonly`: the empty store, the date
2024-03-05, and an apple entry. -/
theorem visit_absent_day_not_readonly_witness :
    getItem (visitDay ([] : Store) ⟨2024, 3, 5⟩) ⟨2024, 3, 5⟩ =
        some defaultDayData ∧
      defaultDayData.moodRating = 5 ∧
      (5 : Nat) ∈ currentMonthMoods (visitDay ([] : Store) ⟨2024, 3, 5⟩)
        ⟨2024, 3, 5, 0⟩ ∧
      (⟨5, 5⟩ : DailyMoodData) ∈
        loadChartDataForMonth (visitDay ([] : Store) ⟨2024, 3, 5⟩) 2024 3 ∧
      calculateFoodMoodMap
          (saveDayData (visitDay ([] : Store) ⟨2024, 3, 5⟩) ⟨2024, 3, 5⟩
            { defaultDayData with
                foodEntries :=
                  handleSaveEntryAdd [] ⟨"10", "Apple", 1709632800000⟩ })
          (toLowerStr "Apple") = some ⟨5, 1, 5⟩ :=
  visit_absent_day_not_readonly [] ⟨2024, 3, 5, 0⟩
    ⟨"10", "Apple", 1709632800000⟩ rfl (by decide) (by decide)

end FoodDiary
